import Mathlib

/-!
Shallow embedding of the mcm catalog applier (package `exec/execlib`,
file `execlib.go`) together with the parts of its environment that the
applier uses: the injected `System` interface, the dependency graph
(`internal/depgraph`), and the error model.  Go functions become Lean
functions; the stateful `System` collaborator becomes explicit state
passing over an abstract state type `σ` plus an accumulated trace of
`System` calls; fallible Go functions returning `error` become
`Except`/`Option` results.
-/

namespace Mcm

/-- Classification of errors returned by `System` operations.  The Go code
distinguishes them only through `os.IsExist`, `os.IsNotExist` and the type
assertion `err.(*exec.ExitError)`; the constructors mirror exactly those
three tests, with `other` for every remaining error. -/
inductive SysErr where
  | isExist
  | isNotExist
  | exitError
  | other (msg : String)
deriving DecidableEq, Repr

/-- The message text of a `System` error, used when the Go code formats the
error with `%v`. -/
def sysErrStr : SysErr → String
  | .isExist => "file exists"
  | .isNotExist => "file does not exist"
  | .exitError => "exit status 1"
  | .other m => m

/-- The kind of a filesystem entry as reported by `Lstat`: the Go code
inspects `info.Mode().IsRegular()`, `info.IsDir()` and
`info.Mode()&os.ModeType == os.ModeSymlink`. -/
inductive FileKind where
  | regular
  | dir
  | symlink
  | other
deriving DecidableEq, Repr

/-- Result of a successful `Lstat`, reduced to the one attribute the
applier reads: the entry's kind. -/
structure FileInfo where
  kind : FileKind
deriving DecidableEq, Repr

/-- The `system.Cmd` struct: the command descriptor produced by `buildCommand` and
consumed by `System.Run` (fields `Path`, `Args`, `Env`, `Dir` of the Go
struct). -/
structure Cmd where
  Path : String
  Args : List String
  Env : List String
  Dir : String
deriving DecidableEq, Repr

/-- One invocation of a `System` method, recorded in order in the traces
returned by the executors. -/
inductive SysCall where
  | lstat (path : String)
  | mkdir (path : String) (mode : Nat)
  | symlink (target path : String)
  | readlink (path : String)
  | remove (path : String)
  | writeFile (path : String) (content : String) (mode : Nat)
  | run (cmd : Cmd)
deriving DecidableEq, Repr

/-- Modelled from the spec: the `System` interface of package
`internal/system` is not under `src/`; §6 of the spec lists its required
operations (`Lstat`, `Mkdir`, `Symlink`, `Readlink`, `Remove`,
`WriteFile`, `Run`).  Each operation consumes and returns an abstract
host state `σ`, so that repeated calls with the same arguments may
observe different host states, as on a real filesystem.  `run` returns
the combined output together with an optional error; a non-zero exit is
reported as `SysErr.exitError` (Go `*exec.ExitError`). -/
structure System (σ : Type) where
  lstat : σ → String → Except SysErr FileInfo × σ
  mkdir : σ → String → Nat → Option SysErr × σ
  symlink : σ → String → String → Option SysErr × σ
  readlink : σ → String → Except SysErr String × σ
  remove : σ → String → Option SysErr × σ
  writeFile : σ → String → String → Nat → Option SysErr × σ
  run : σ → Cmd → (String × Option SysErr) × σ

/-- Modelled from the spec: the structured error type of package
`exec/execlib` (file not under `src/`); §4.5 of the spec says it carries a
cause and optional captured command output.  The resource identity that
the driver attaches (`errorWithResource`) is not needed by the executors
and is left to the driver's event log. -/
structure AppError where
  msg : String
  output : Option String
deriving DecidableEq, Repr

/-- Go `errorf`: build an error from a message, with no captured output. -/
def errorf (msg : String) : AppError := ⟨msg, none⟩

/-- Go `errorWithOutput`: attach captured command output to an error. -/
def errorWithOutput (out : String) (e : AppError) : AppError :=
  { e with output := some out }

/-- A raw `System` error returned unchanged by the executor (Go
`return err`). -/
def toAppErr (e : SysErr) : AppError := ⟨sysErrStr e, none⟩

/-- Go `filepath.IsAbs` on Unix: the path begins with a slash. -/
def isAbs (p : String) : Bool :=
  match p.data with
  | [] => false
  | c :: _ => c == '/'

/-- Modelled from the spec: `system.LocalRoot`, the absolute default
working directory (§6), substituted when a command's working directory is
empty. -/
def LocalRoot : String := "/"

/-! ## Catalog data model (§3): the decoded catalog as seen by the applier. -/

/-- One `name=value` pair of an exec command's environment. -/
structure EnvPair where
  name : String
  value : String
deriving DecidableEq, Repr

/-- The tagged union inside `catalog.Exec_Command`: the only supported
variant is `argv`; every other tag is rejected by `buildCommand`. -/
inductive CmdUnion where
  | argv (args : List String)
  | unknown
deriving DecidableEq, Repr

/-- The `catalog.Exec_Command` struct: an argv-style command plus environment and
working directory. -/
structure ExecCommand where
  u : CmdUnion
  environment : List EnvPair
  workingDirectory : String
deriving DecidableEq, Repr

/-- The `catalog.Exec_condition` union: the tagged union of exec conditions.  The
constructor `unlessCond` embeds the catalog's `unless` variant (the word
`unless` is reserved in Lean). -/
inductive Condition where
  | always
  | onlyIf (c : ExecCommand)
  | unlessCond (c : ExecCommand)
  | fileAbsent (path : String)
  | unknown
deriving DecidableEq, Repr

/-- The `catalog.Exec` struct: a main command guarded by a condition. -/
structure Exec where
  command : ExecCommand
  condition : Condition
deriving DecidableEq, Repr

/-- The tagged union inside `catalog.File`.  `plain` carries the optional
content (`HasContent`/`Content`); `symlink` carries the target. -/
inductive FileUnion where
  | plain (content : Option String)
  | directory
  | symlink (target : String)
  | absent
  | unknown
deriving DecidableEq, Repr

/-- The `catalog.File` struct: a path plus the file sub-variant. -/
structure File where
  path : String
  u : FileUnion
deriving DecidableEq, Repr

/-- The tagged union inside `catalog.Resource` (`noop | file | exec`). -/
inductive ResourceUnion where
  | noop
  | file (f : File)
  | exec (e : Exec)
  | unknown
deriving DecidableEq, Repr

/-- The `catalog.Resource` struct: id, comment, dependency list and tagged body. -/
structure Resource where
  id : Nat
  comment : String
  dependencies : List Nat
  u : ResourceUnion
deriving DecidableEq, Repr

instance : Inhabited Resource := ⟨⟨0, "", [], .noop⟩⟩

/-! ## Command construction (`buildCommand`, execlib.go lines 255-308). -/

/-- The environment loop of `buildCommand`: each pair becomes the string
`name=value`; a pair with an empty name aborts with
`environment[i] missing name`.  `i` is the index of the first pair of the
remaining list. -/
def envStrings (i : Nat) : List EnvPair → Except String (List String)
  | [] => .ok []
  | p :: ps =>
    if p.name = "" then .error s!"environment[{i}] missing name"
    else
      match envStrings (i + 1) ps with
      | .error m => .error m
      | .ok rest => .ok ((p.name ++ "=" ++ p.value) :: rest)

/-- Go `buildCommand`: turn a catalog command into a `system.Cmd`.  Checks,
in source order: the variant is `argv`; argv is non-empty; `argv[0]` is
absolute; every environment name is non-empty; the working directory is
absolute when non-empty, and defaults to `LocalRoot` when empty. -/
def buildCommand (cmd : ExecCommand) : Except String Cmd :=
  match cmd.u with
  | .argv argv =>
    match argv with
    | [] => .error "0-length argv"
    | a0 :: _ =>
      if !isAbs a0 then
        .error ("argv[0] (" ++ a0 ++ ") is not an absolute path")
      else
        match envStrings 0 cmd.environment with
        | .error m => .error m
        | .ok env =>
          if cmd.workingDirectory = "" then
            .ok { Path := a0, Args := argv, Env := env, Dir := LocalRoot }
          else if !isAbs cmd.workingDirectory then
            .error ("working directory " ++ cmd.workingDirectory ++ " is not absolute")
          else
            .ok { Path := a0, Args := argv, Env := env, Dir := cmd.workingDirectory }
  | .unknown => .error "unsupported command type"

/-- The formatted environment entry for one pair. -/
def envString (p : EnvPair) : String := p.name ++ "=" ++ p.value

/-! ## File executor (`Applier.applyFile`, execlib.go lines 110-192).
File modes are octal in the Go source: `0666 = 438`, `0777 = 511`. -/

/-- Go `Applier.applyFile`: dispatch on the file sub-variant, returning the
result, the ordered trace of `System` calls, and the final host state. -/
def applyFile {σ : Type} (sys : System σ) (s : σ) (f : File) :
    Except AppError Unit × List SysCall × σ :=
  if f.path = "" then (.error (errorf "file path is empty"), [], s)
  else
    match f.u with
    | .plain content =>
      match content with
      | some c =>
        let w := sys.writeFile s f.path c 438
        match w.1 with
        | some e => (.error (toAppErr e), [.writeFile f.path c 438], w.2)
        | none => (.ok (), [.writeFile f.path c 438], w.2)
      | none =>
        let l := sys.lstat s f.path
        match l.1 with
        | .error e => (.error (toAppErr e), [.lstat f.path], l.2)
        | .ok info =>
          if info.kind = .regular then (.ok (), [.lstat f.path], l.2)
          else
            -- the Go source formats this message with a missing `%s` operand
            (.error (errorf "%!s(MISSING) is not a regular file"), [.lstat f.path], l.2)
    | .directory =>
      let m := sys.mkdir s f.path 511
      match m.1 with
      | none => (.ok (), [.mkdir f.path 511], m.2)
      | some e =>
        if e = .isExist then
          let l := sys.lstat m.2 f.path
          match l.1 with
          | .error e2 =>
            (.error (errorf ("determine state of " ++ f.path ++ ": " ++ sysErrStr e2)),
              [.mkdir f.path 511, .lstat f.path], l.2)
          | .ok info =>
            if info.kind = .dir then (.ok (), [.mkdir f.path 511, .lstat f.path], l.2)
            else
              (.error (errorf (f.path ++ " is not a directory")),
                [.mkdir f.path 511, .lstat f.path], l.2)
        else (.error (toAppErr e), [.mkdir f.path 511], m.2)
    | .symlink target =>
      let sl := sys.symlink s target f.path
      match sl.1 with
      | none => (.ok (), [.symlink target f.path], sl.2)
      | some e =>
        if e = .isExist then
          let l := sys.lstat sl.2 f.path
          match l.1 with
          | .error e2 =>
            (.error (errorf ("determine state of " ++ f.path ++ ": " ++ sysErrStr e2)),
              [.symlink target f.path, .lstat f.path], l.2)
          | .ok info =>
            if info.kind = .symlink then
              let rl := sys.readlink l.2 f.path
              match rl.1 with
              | .error e3 =>
                (.error (toAppErr e3),
                  [.symlink target f.path, .lstat f.path, .readlink f.path], rl.2)
              | .ok actual =>
                if actual = target then
                  (.ok (), [.symlink target f.path, .lstat f.path, .readlink f.path], rl.2)
                else
                  let rm := sys.remove rl.2 f.path
                  match rm.1 with
                  | some e4 =>
                    (.error (errorf ("retargeting " ++ f.path ++ ": " ++ sysErrStr e4)),
                      [.symlink target f.path, .lstat f.path, .readlink f.path,
                        .remove f.path], rm.2)
                  | none =>
                    let sl2 := sys.symlink rm.2 target f.path
                    match sl2.1 with
                    | some e5 =>
                      (.error (errorf ("retargeting " ++ f.path ++ ": " ++ sysErrStr e5)),
                        [.symlink target f.path, .lstat f.path, .readlink f.path,
                          .remove f.path, .symlink target f.path], sl2.2)
                    | none =>
                      (.ok (),
                        [.symlink target f.path, .lstat f.path, .readlink f.path,
                          .remove f.path, .symlink target f.path], sl2.2)
            else
              (.error (errorf (f.path ++ " is not a symlink")),
                [.symlink target f.path, .lstat f.path], l.2)
        else (.error (toAppErr e), [.symlink target f.path], sl.2)
    | .absent =>
      let r := sys.remove s f.path
      match r.1 with
      | none => (.ok (), [.remove f.path], r.2)
      | some e =>
        if e = .isNotExist then (.ok (), [.remove f.path], r.2)
        else (.error (toAppErr e), [.remove f.path], r.2)
    | .unknown => (.error (errorf "unsupported file directive"), [], s)

/-! ## Exec executor (`Applier.applyExec`, execlib.go lines 194-253). -/

/-- The tail of `applyExec` (lines 240-252): build and run the main
command after the condition has decided to proceed. -/
def runMain {σ : Type} (sys : System σ) (s : σ) (e : Exec) :
    Except AppError Unit × List SysCall × σ :=
  match buildCommand e.command with
  | .error m => (.error (errorf ("command: " ++ m)), [], s)
  | .ok cmd =>
    let r := sys.run s cmd
    match r.1.2 with
    | some er =>
      (.error (errorWithOutput r.1.1 (errorf ("command: " ++ sysErrStr er))), [.run cmd], r.2)
    | none => (.ok (), [.run cmd], r.2)

/-- Go `Applier.applyExec`: evaluate the condition, then optionally run the
main command. -/
def applyExec {σ : Type} (sys : System σ) (s : σ) (e : Exec) :
    Except AppError Unit × List SysCall × σ :=
  match e.condition with
  | .always => runMain sys s e
  | .onlyIf c =>
    match buildCommand c with
    | .error m => (.error (errorf ("condition: " ++ m)), [], s)
    | .ok cmd =>
      let r := sys.run s cmd
      match r.1.2 with
      | some .exitError => (.ok (), [.run cmd], r.2)
      | some er =>
        (.error (errorWithOutput r.1.1 (errorf ("condition: " ++ sysErrStr er))),
          [.run cmd], r.2)
      | none =>
        let m := runMain sys r.2 e
        (m.1, .run cmd :: m.2.1, m.2.2)
  | .unlessCond c =>
    match buildCommand c with
    | .error m => (.error (errorf ("condition: " ++ m)), [], s)
    | .ok cmd =>
      let r := sys.run s cmd
      match r.1.2 with
      | none => (.ok (), [.run cmd], r.2)
      | some .exitError =>
        let m := runMain sys r.2 e
        (m.1, .run cmd :: m.2.1, m.2.2)
      | some er =>
        (.error (errorWithOutput r.1.1 (errorf ("condition: " ++ sysErrStr er))),
          [.run cmd], r.2)
  | .fileAbsent p =>
    let l := sys.lstat s p
    match l.1 with
    | .ok _ => (.ok (), [.lstat p], l.2)
    | .error er =>
      if er = .isNotExist then
        let m := runMain sys l.2 e
        (m.1, .lstat p :: m.2.1, m.2.2)
      else (.error (errorf ("condition: " ++ sysErrStr er)), [.lstat p], l.2)
  | .unknown => (.error (errorf "unknown condition"), [], s)

/-- Go `Applier.applyResource` (lines 89-108): dispatch on the resource body. -/
def applyResource {σ : Type} (sys : System σ) (s : σ) (r : Resource) :
    Except AppError Unit × List SysCall × σ :=
  match r.u with
  | .noop => (.ok (), [], s)
  | .file f => applyFile sys s f
  | .exec e => applyExec sys s e
  | .unknown => (.error (errorf "unknown type"), [], s)

/-! ## Dependency graph.

The package `internal/depgraph` is not under `src/`; the graph below is
modelled from §4.1 of the spec: each node is a resource plus a mutable
status, `done` is true iff every node has terminal status, `ready` lists
the pending nodes whose dependencies are all done in ascending-ID order,
`mark` sets a node to done, and `markFailure` sets a node to failed and
transitively marks its pending descendants as skipped, returning the
freshly-skipped IDs in ascending order. -/

/-- Modelled from the spec: the per-node status of §3.  `ready` is not a
stored status; it is computed from `pending` plus the dependencies. -/
inductive Status where
  | pending
  | done
  | failed
  | skipped
deriving DecidableEq, Repr

/-- A status is terminal iff it is not `pending` (§4.1: `done | failed |
skipped`). -/
def Status.terminal : Status → Bool
  | .pending => false
  | _ => true

/-- Modelled from the spec: a graph node — a resource, its resolved
dependency IDs, and its status. -/
structure Node where
  id : Nat
  deps : List Nat
  res : Resource
  status : Status
deriving DecidableEq, Repr

/-- Modelled from the spec: the dependency graph, owning its nodes. -/
structure Graph where
  nodes : List Node
deriving DecidableEq, Repr

/-- The status of the node with the given ID, if present. -/
def Graph.statusOf (g : Graph) (i : Nat) : Option Status :=
  (g.nodes.find? (fun n => n.id == i)).map (fun n => n.status)

/-- The resource of the node with the given ID (`Graph.Resource`). -/
def Graph.resource (g : Graph) (i : Nat) : Resource :=
  match g.nodes.find? (fun n => n.id == i) with
  | some n => n.res
  | none => default

/-- Modelled from the spec: `done()` is true iff every node has terminal
status. -/
def Graph.done (g : Graph) : Bool :=
  g.nodes.all (fun n => n.status.terminal)

/-- A dependency counts as satisfied iff its node is `done`. -/
def Graph.depDone (g : Graph) (d : Nat) : Bool :=
  match g.statusOf d with
  | some .done => true
  | _ => false

/-- Insert an ID into an ascending list, keeping it ascending. -/
def insertById (i : Nat) : List Nat → List Nat
  | [] => [i]
  | j :: js => if i ≤ j then i :: j :: js else j :: insertById i js

/-- Sort a list of IDs ascending (insertion sort). -/
def sortIds (l : List Nat) : List Nat := l.foldr insertById []

/-- Modelled from the spec: `ready()` — the IDs of all pending nodes whose
dependencies are all done, in ascending-ID order. -/
def Graph.ready (g : Graph) : List Nat :=
  sortIds ((g.nodes.filter
    (fun n => n.status == Status.pending && n.deps.all (fun d => g.depDone d))).map
      (fun n => n.id))

/-- Replace the status of the node with the given ID. -/
def Graph.setStatus (g : Graph) (i : Nat) (st : Status) : Graph :=
  ⟨g.nodes.map (fun n => if n.id == i then { n with status := st } else n)⟩

/-- Modelled from the spec: `mark(node)` sets the node's status to done. -/
def Graph.mark (g : Graph) (i : Nat) : Graph := g.setStatus i .done

/-- A dependency propagates a skip iff its node is failed or skipped. -/
def Graph.depBad (g : Graph) (d : Nat) : Bool :=
  match g.statusOf d with
  | some .failed => true
  | some .skipped => true
  | _ => false

/-- One propagation step of transitive skipping: every pending node with a
failed or skipped dependency becomes skipped. -/
def Graph.skipOnce (g : Graph) : Graph :=
  ⟨g.nodes.map (fun n =>
    if n.status == Status.pending && n.deps.any (fun d => g.depBad d) then
      { n with status := Status.skipped }
    else n)⟩

/-- Iterate skip propagation; `g.nodes.length` rounds reach the fixpoint
because each productive round skips at least one node. -/
def Graph.skipAll : Nat → Graph → Graph
  | 0, g => g
  | n + 1, g => Graph.skipAll n g.skipOnce

/-- Modelled from the spec: `markFailure(node)` sets the node's status to
failed, transitively marks its pending descendants as skipped, and
returns the freshly-skipped IDs in ascending order. -/
def Graph.markFailure (g : Graph) (i : Nat) : Graph × List Nat :=
  let g1 := g.setStatus i .failed
  let g2 := Graph.skipAll g.nodes.length g1
  (g2,
    sortIds ((g2.nodes.filter
      (fun n => n.status == Status.skipped && g.statusOf n.id == some Status.pending)).map
        (fun n => n.id)))

/-! ## Applier driver (`Applier.applyCatalog`, execlib.go lines 53-87). -/

/-- The result of the apply loop: `ok` for a nil error, `notClean` for the
summary error `not all resources applied cleanly`, `cancelled` for
`ctx.Err()`, and `internalError` for the remaining `errors.New` cases. -/
inductive ApplyResult where
  | ok
  | notClean
  | cancelled
  | internalError (msg : String)
deriving DecidableEq, Repr

/-- Whether an executor invocation succeeded. -/
def execOk (r : Except AppError Unit) : Bool :=
  match r with
  | .ok _ => true
  | .error _ => false

/-- The loop of `Applier.applyCatalog`.  `ctx i` tells whether the cancellation
token has fired when iteration `i` performs its `select` on `ctx.Done()`;
`ok` is the running not-clean flag; the returned list records, in order,
the ID of each resource whose executor was invoked together with whether
it succeeded.  The loop consumes one unit of fuel per iteration; each
iteration turns a pending node terminal, so `g.nodes.length` units are
enough for the whole run and the out-of-fuel branch is unreachable from
`applyCatalog` (see `applyLoop_fuel_stable`). -/
def applyLoop {σ : Type} (sys : System σ) (ctx : Nat → Bool) :
    Nat → σ → Graph → Bool → Nat → ApplyResult × List (Nat × Bool) × σ
  | 0, s, g, ok, _ =>
    if g.done then (if ok then .ok else .notClean, [], s)
    else (.internalError "loop fuel exhausted", [], s)
  | fuel + 1, s, g, ok, i =>
    if g.done then (if ok then .ok else .notClean, [], s)
    else
      match g.ready with
      | [] => (.internalError "graph not done, but has nothing to do", [], s)
      | curr :: _ =>
        if ctx i then (.cancelled, [], s)
        else
          let a := applyResource sys s (g.resource curr)
          if execOk a.1 then
            let rec1 := applyLoop sys ctx fuel a.2.2 (g.mark curr) ok (i + 1)
            (rec1.1, (curr, true) :: rec1.2.1, rec1.2.2)
          else
            let rec2 := applyLoop sys ctx fuel a.2.2 (g.markFailure curr).1 false (i + 1)
            (rec2.1, (curr, false) :: rec2.2.1, rec2.2.2)

/-- Go `Applier.applyCatalog`: run the loop from a fresh graph with the
not-clean flag clear. -/
def applyCatalog {σ : Type} (sys : System σ) (ctx : Nat → Bool) (s : σ) (g : Graph) :
    ApplyResult × List (Nat × Bool) × σ :=
  applyLoop sys ctx g.nodes.length s g true 0

/-- The number of pending (non-terminal) nodes; each loop iteration
strictly decreases it. -/
def countPending (g : Graph) : Nat :=
  (g.nodes.filter (fun n => n.status == Status.pending)).length

/-! ## Concrete hosts, contexts and graphs used to exercise the model. -/

/-- A host on which every `System` operation fails with an opaque error;
used where the run under study never touches the host. -/
def trivSys : System Unit where
  lstat := fun s _ => (.error (.other "unused"), s)
  mkdir := fun s _ _ => (some (.other "unused"), s)
  symlink := fun s _ _ => (some (.other "unused"), s)
  readlink := fun s _ => (.error (.other "unused"), s)
  remove := fun s _ => (some (.other "unused"), s)
  writeFile := fun s _ _ _ => (some (.other "unused"), s)
  run := fun s _ => (("", some (.other "unused")), s)

/-- A host holding one symlink `/tmp/link → /old`; the state records
whether the link has been removed.  `symlink` fails with an exists error
until the link is removed. -/
def linkSys : System Bool where
  lstat := fun s _ => (.ok ⟨.symlink⟩, s)
  mkdir := fun s _ _ => (some (.other "unused"), s)
  symlink := fun s _ _ => if s then (none, s) else (some .isExist, s)
  readlink := fun s _ => (.ok "/old", s)
  remove := fun _ _ => (none, true)
  writeFile := fun s _ _ _ => (some (.other "unused"), s)
  run := fun s _ => (("", some (.other "unused")), s)

/-- A host whose every command exits with a non-zero status. -/
def sysRunExit : System Unit where
  lstat := fun s _ => (.error (.other "unused"), s)
  mkdir := fun s _ _ => (some (.other "unused"), s)
  symlink := fun s _ _ => (some (.other "unused"), s)
  readlink := fun s _ => (.error (.other "unused"), s)
  remove := fun s _ => (some (.other "unused"), s)
  writeFile := fun s _ _ _ => (some (.other "unused"), s)
  run := fun s _ => (("boom", some .exitError), s)

/-- A host whose every command succeeds with empty output. -/
def sysRunOk : System Unit where
  lstat := fun s _ => (.error (.other "unused"), s)
  mkdir := fun s _ _ => (some (.other "unused"), s)
  symlink := fun s _ _ => (some (.other "unused"), s)
  readlink := fun s _ => (.error (.other "unused"), s)
  remove := fun s _ => (some (.other "unused"), s)
  writeFile := fun s _ _ _ => (some (.other "unused"), s)
  run := fun s _ => (("", none), s)

/-- A cancellation token that never fires. -/
def ctxNever : Nat → Bool := fun _ => false

/-- A cancellation token that has already fired. -/
def ctxAlways : Nat → Bool := fun _ => true

/-- A cancellation token fired after the first loop iteration. -/
def ctxAfterOne : Nat → Bool := fun i => decide (1 ≤ i)

/-- A noop resource with the given ID. -/
def noopRes (i : Nat) : Resource := ⟨i, "", [], .noop⟩

/-- A fresh pending node with no dependencies. -/
def freshNode (r : Resource) : Node := ⟨r.id, r.dependencies, r, .pending⟩

/-- A two-resource graph: resource 1 succeeds (noop), resource 2 fails
(unknown body). -/
def gMixed : Graph :=
  ⟨[freshNode (noopRes 1), freshNode ⟨2, "", [], .unknown⟩]⟩

/-- Five independent noop resources, IDs 1 through 5. -/
def g5 : Graph :=
  ⟨[freshNode (noopRes 1), freshNode (noopRes 2), freshNode (noopRes 3),
    freshNode (noopRes 4), freshNode (noopRes 5)]⟩

/-- The empty graph (empty catalog): done before the loop starts. -/
def gDone : Graph := ⟨[]⟩

/-- A malformed graph that is not done yet has an empty ready set: its one
node depends on a missing ID. -/
def gStuck : Graph := ⟨[⟨1, [2], noopRes 1, .pending⟩]⟩

/-! ## Supporting lemmas. -/

lemma envStrings_ok {i : Nat} {l : List EnvPair} {es : List String}
    (h : envStrings i l = .ok es) : es = l.map envString := by
  induction l generalizing i es with
  | nil => simp [envStrings] at h; simp [h]
  | cons p ps ih =>
    simp only [envStrings] at h
    by_cases hn : p.name = ""
    · simp [hn] at h
    · simp only [hn, if_false] at h
      cases hrec : envStrings (i + 1) ps with
      | error m => rw [hrec] at h; cases h
      | ok rest =>
        rw [hrec] at h
        cases h
        simp [List.map, envString, ih hrec]

lemma envStrings_empty_name {i : Nat} {l : List EnvPair} {p : EnvPair}
    (hp : p ∈ l) (hn : p.name = "") : ∃ m, envStrings i l = .error m := by
  induction l generalizing i with
  | nil => cases hp
  | cons q qs ih =>
    simp only [envStrings]
    by_cases hq : q.name = ""
    · exact ⟨s!"environment[{i}] missing name", by simp [hq]⟩
    · simp only [hq, if_false]
      rcases List.mem_cons.mp hp with h | h
      · subst h; exact absurd hn hq
      · rcases ih h with ⟨m, hm⟩
        exact ⟨m, by rw [hm]⟩

lemma mem_insertById {x i : Nat} : ∀ {l : List Nat}, x ∈ insertById i l ↔ x = i ∨ x ∈ l := by
  intro l
  induction l with
  | nil => simp [insertById]
  | cons j js ih =>
    simp only [insertById]
    by_cases h : i ≤ j
    · simp [h]
    · simp only [h, if_false, List.mem_cons, ih]
      tauto

lemma mem_sortIds {x : Nat} : ∀ {l : List Nat}, x ∈ sortIds l ↔ x ∈ l := by
  intro l
  induction l with
  | nil => simp [sortIds]
  | cons j js ih =>
    rw [show sortIds (j :: js) = insertById j (sortIds js) from rfl, mem_insertById, ih]
    simp [List.mem_cons, eq_comm]

lemma ready_pending {g : Graph} {i : Nat} (h : i ∈ g.ready) :
    ∃ n ∈ g.nodes, n.id = i ∧ n.status = Status.pending := by
  unfold Graph.ready at h
  rw [mem_sortIds] at h
  rcases List.mem_map.mp h with ⟨n, hn, hid⟩
  rcases List.mem_filter.mp hn with ⟨hmem, hcond⟩
  rw [Bool.and_eq_true] at hcond
  exact ⟨n, hmem, hid, by simpa using hcond.1⟩

lemma length_filter_map_le {α : Type} (p : α → Bool) (f : α → α)
    (hf : ∀ a, p (f a) = true → p a = true) :
    ∀ l : List α, ((l.map f).filter p).length ≤ (l.filter p).length := by
  intro l
  induction l with
  | nil => simp
  | cons a l ih =>
    simp only [List.map_cons, List.filter_cons]
    by_cases hfa : p (f a)
    · have hpa := hf a hfa
      simp only [hfa, hpa, if_true, List.length_cons]
      exact Nat.succ_le_succ ih
    · simp only [hfa, if_false]
      by_cases hpa : p a
      · simp only [hpa, if_true, List.length_cons]
        exact le_trans ih (Nat.le_succ _)
      · simp only [hpa, if_false]
        exact ih

lemma length_filter_map_lt {α : Type} (p : α → Bool) (f : α → α)
    (hf : ∀ a, p (f a) = true → p a = true) :
    ∀ {l : List α} {a₀ : α}, a₀ ∈ l → p a₀ = true → p (f a₀) = false →
      ((l.map f).filter p).length < (l.filter p).length := by
  intro l
  induction l with
  | nil => intro a₀ h; cases h
  | cons a l ih =>
    intro a₀ hmem hp hpf
    simp only [List.map_cons, List.filter_cons]
    rcases List.mem_cons.mp hmem with rfl | hmem2
    · simp only [hpf, if_false, hp, if_true, List.length_cons]
      exact Nat.lt_succ_of_le (length_filter_map_le p f hf l)
    · by_cases hfa : p (f a)
      · have hpa := hf a hfa
        simp only [hfa, hpa, if_true, List.length_cons]
        exact Nat.succ_lt_succ (ih hmem2 hp hpf)
      · simp only [hfa, if_false]
        by_cases hpa : p a
        · simp only [hpa, if_true, List.length_cons]
          exact Nat.lt_succ_of_le (length_filter_map_le p f hf l)
        · simp only [hpa, if_false]
          exact ih hmem2 hp hpf

lemma countPending_setStatus_lt {g : Graph} {i : Nat} {st : Status}
    (hst : st ≠ .pending)
    (h : ∃ n ∈ g.nodes, n.id = i ∧ n.status = .pending) :
    countPending (g.setStatus i st) < countPending g := by
  rcases h with ⟨n, hmem, hid, hp⟩
  unfold countPending Graph.setStatus
  refine length_filter_map_lt (fun n => n.status == Status.pending)
    (fun n => if n.id == i then { n with status := st } else n) ?_ hmem ?_ ?_
  · intro a ha
    by_cases hai : (a.id == i) = true
    · simp only [hai, if_true, beq_iff_eq] at ha
      exact absurd ha hst
    · rw [Bool.not_eq_true] at hai
      simp only [hai, Bool.false_eq_true, if_false] at ha
      exact ha
  · simp [hp]
  · simp only [hid, beq_self_eq_true, if_true]
    simpa using hst

lemma countPending_skipOnce_le (g : Graph) : countPending g.skipOnce ≤ countPending g := by
  unfold countPending Graph.skipOnce
  refine length_filter_map_le _ _ ?_ _
  intro a ha
  by_cases hc : (a.status == Status.pending && a.deps.any (fun d => g.depBad d)) = true
  · simp only [hc, if_true] at ha
    simp at ha
  · rw [Bool.not_eq_true] at hc
    simp only [hc, Bool.false_eq_true, if_false] at ha
    exact ha

lemma countPending_skipAll_le : ∀ (k : Nat) (g : Graph),
    countPending (Graph.skipAll k g) ≤ countPending g
  | 0, _ => le_refl _
  | k + 1, g => le_trans (countPending_skipAll_le k g.skipOnce) (countPending_skipOnce_le g)

lemma countPending_mark_lt {g : Graph} {i : Nat}
    (h : ∃ n ∈ g.nodes, n.id = i ∧ n.status = .pending) :
    countPending (g.mark i) < countPending g :=
  countPending_setStatus_lt (by simp) h

lemma countPending_markFailure_lt {g : Graph} {i : Nat}
    (h : ∃ n ∈ g.nodes, n.id = i ∧ n.status = .pending) :
    countPending (g.markFailure i).1 < countPending g :=
  lt_of_le_of_lt (countPending_skipAll_le _ _) (countPending_setStatus_lt (by simp) h)

lemma terminal_iff_not_pending (st : Status) :
    st.terminal = true ↔ (st == Status.pending) = false := by
  cases st <;> simp [Status.terminal]

lemma countPending_zero_iff_done (g : Graph) : countPending g = 0 ↔ g.done = true := by
  unfold countPending Graph.done
  rw [List.length_eq_zero, List.filter_eq_nil_iff, List.all_eq_true]
  constructor
  · intro h n hn
    rw [terminal_iff_not_pending]
    simpa using h n hn
  · intro h n hn
    have := (terminal_iff_not_pending n.status).mp (h n hn)
    simp [this]

lemma applyLoop_fuel_stable {σ : Type} (sys : System σ) (ctx : Nat → Bool) :
    ∀ (fuel : Nat) (s : σ) (g : Graph) (ok : Bool) (i : Nat), countPending g ≤ fuel →
      applyLoop sys ctx (fuel + 1) s g ok i = applyLoop sys ctx fuel s g ok i := by
  intro fuel
  induction fuel with
  | zero =>
    intro s g ok i hc
    have hd : g.done = true := (countPending_zero_iff_done g).mp (Nat.le_zero.mp hc)
    simp [applyLoop, hd]
  | succ n ih =>
    intro s g ok i hc
    by_cases hd : g.done = true
    · conv_lhs => rw [applyLoop]
      conv_rhs => rw [applyLoop]
      simp [hd]
    · rw [Bool.not_eq_true] at hd
      conv_lhs => rw [applyLoop]
      conv_rhs => rw [applyLoop]
      simp only [hd, Bool.false_eq_true, if_false]
      cases hready : g.ready with
      | nil => rfl
      | cons curr rest =>
        by_cases hctx : ctx i = true
        · simp only [hctx, if_true]
        · rw [Bool.not_eq_true] at hctx
          simp only [hctx, Bool.false_eq_true, if_false]
          have hpend : ∃ n' ∈ g.nodes, n'.id = curr ∧ n'.status = .pending :=
            ready_pending (hready ▸ List.mem_cons_self curr rest)
          by_cases hex : execOk (applyResource sys s (g.resource curr)).1 = true
          · simp only [hex, if_true]
            rw [ih _ _ _ _
              (Nat.lt_succ_iff.mp (lt_of_lt_of_le (countPending_mark_lt hpend) hc))]
          · rw [Bool.not_eq_true] at hex
            simp only [hex, Bool.false_eq_true, if_false]
            rw [ih _ _ _ _
              (Nat.lt_succ_iff.mp (lt_of_lt_of_le (countPending_markFailure_lt hpend) hc))]

lemma applyLoop_ok_iff {σ : Type} (sys : System σ) (ctx : Nat → Bool) :
    ∀ (fuel : Nat) (s : σ) (g : Graph) (ok : Bool) (i : Nat),
      ((applyLoop sys ctx fuel s g ok i).1 = .ok ∨
        (applyLoop sys ctx fuel s g ok i).1 = .notClean) →
      ((applyLoop sys ctx fuel s g ok i).1 = .ok ↔
        (ok && (applyLoop sys ctx fuel s g ok i).2.1.all (fun ev => ev.2)) = true) := by
  intro fuel
  induction fuel with
  | zero =>
    intro s g ok i h
    by_cases hd : g.done = true
    · simp only [applyLoop, hd, if_true] at h ⊢
      cases ok <;> simp
    · rw [Bool.not_eq_true] at hd
      simp only [applyLoop, hd, Bool.false_eq_true, if_false] at h
      simp at h
  | succ n ih =>
    intro s g ok i h
    by_cases hd : g.done = true
    · simp only [applyLoop, hd, if_true] at h ⊢
      cases ok <;> simp
    · rw [Bool.not_eq_true] at hd
      simp only [applyLoop, hd, Bool.false_eq_true, if_false] at h ⊢
      cases hready : g.ready with
      | nil =>
        rw [hready] at h
        simp at h
      | cons curr rest =>
        rw [hready] at h
        by_cases hctx : ctx i = true
        · simp only [hctx, if_true] at h
          simp at h
        · rw [Bool.not_eq_true] at hctx
          simp only [hctx, Bool.false_eq_true, if_false] at h ⊢
          by_cases hex : execOk (applyResource sys s (g.resource curr)).1 = true
          · simp only [hex, if_true] at h ⊢
            simpa using ih (applyResource sys s (g.resource curr)).2.2 (g.mark curr)
              ok (i + 1) h
          · rw [Bool.not_eq_true] at hex
            simp only [hex, Bool.false_eq_true, if_false] at h ⊢
            simpa using ih (applyResource sys s (g.resource curr)).2.2
              (g.markFailure curr).1 false (i + 1) h

/-! ## Claims. -/

/-- C1: the apply loop returns nil iff every invoked executor succeeded —
a single resource failure is never propagated as the loop's return value:
when the loop runs to completion the result is nil exactly when the event
log holds no failure, and any failure in the event log rules out a nil
result. -/
theorem apply_ok_iff_all_clean {σ : Type} (sys : System σ) (ctx : Nat → Bool)
    (s : σ) (g : Graph) :
    ((applyCatalog sys ctx s g).2.1.any (fun ev => !ev.2) = true →
      (applyCatalog sys ctx s g).1 ≠ .ok) ∧
    ((applyCatalog sys ctx s g).1 = .ok ∨ (applyCatalog sys ctx s g).1 = .notClean →
      ((applyCatalog sys ctx s g).1 = .ok ↔
        (applyCatalog sys ctx s g).2.1.all (fun ev => ev.2) = true)) := by
  unfold applyCatalog
  constructor
  · intro hany hok
    have hiff := applyLoop_ok_iff sys ctx g.nodes.length s g true 0 (Or.inl hok)
    have hall := hiff.mp hok
    rw [Bool.true_and] at hall
    rcases List.any_eq_true.mp hany with ⟨ev, hev, hnev⟩
    have hev2 := List.all_eq_true.mp hall ev hev
    rw [hev2] at hnev
    simp at hnev
  · intro h
    have hiff := applyLoop_ok_iff sys ctx g.nodes.length s g true 0 h
    simpa using hiff

/-- C1 witness: a two-resource catalog where resource 2's executor fails —
the loop result is the not-clean summary, matching the event log. -/
theorem apply_ok_iff_all_clean_witness :
    (applyCatalog trivSys ctxNever () gMixed).1 = .notClean ∧
    ((applyCatalog trivSys ctxNever () gMixed).1 = .ok ↔
      (applyCatalog trivSys ctxNever () gMixed).2.1.all (fun ev => ev.2) = true) :=
  ⟨rfl, (apply_ok_iff_all_clean trivSys ctxNever () gMixed).2 (Or.inr rfl)⟩

/-- C2: once the cancellation token has fired, an apply-loop iteration on
a not-yet-done graph with work available returns the cancellation error at
the start of the iteration and invokes no executor (its event log is
empty and the host state is untouched). -/
theorem applyLoop_cancelled {σ : Type} (sys : System σ) (ctx : Nat → Bool)
    (fuel : Nat) (s : σ) (g : Graph) (ok : Bool) (i : Nat)
    (hdone : g.done = false) (hready : g.ready ≠ []) (hc : ctx i = true) :
    applyLoop sys ctx (fuel + 1) s g ok i = (.cancelled, [], s) := by
  simp only [applyLoop, hdone, Bool.false_eq_true, if_false]
  cases hr : g.ready with
  | nil => exact absurd hr hready
  | cons c r => simp [hc]

/-- C2 witness: the spec's scenario — five resources, token fired after
the first completes: resource 1 is applied and marked done, the loop
returns the cancellation error, resources 2 through 5 are never
invoked. -/
theorem applyLoop_cancelled_witness :
    applyCatalog trivSys ctxAfterOne () g5 = (.cancelled, [(1, true)], ()) ∧
    applyLoop trivSys ctxAfterOne 4 () (g5.mark 1) true 1 = (.cancelled, [], ()) :=
  ⟨rfl,
   applyLoop_cancelled trivSys ctxAfterOne 3 () (g5.mark 1) true 1 rfl (by decide) rfl⟩

/-- C9: cancellation is only observed when there is work to schedule: on a
graph that is already done the loop returns its normal result (nil, or
the not-clean summary when the flag is set) whatever the token says, and
an iteration whose ready set is empty returns the internal-consistency
error before consulting the token. -/
theorem applyLoop_done_ignores_ctx {σ : Type} (sys : System σ) (ctx : Nat → Bool)
    (fuel : Nat) (s : σ) (g : Graph) (ok : Bool) (i : Nat) :
    (g.done = true →
      applyLoop sys ctx fuel s g ok i = ((if ok then .ok else .notClean), [], s)) ∧
    (g.done = false → g.ready = [] → 0 < fuel →
      applyLoop sys ctx fuel s g ok i
        = (.internalError "graph not done, but has nothing to do", [], s)) := by
  constructor
  · intro hd
    cases fuel with
    | zero => simp [applyLoop, hd]
    | succ n => simp only [applyLoop, hd, if_true]
  · intro hd hr hf
    cases fuel with
    | zero => exact absurd hf (by simp)
    | succ n =>
      simp only [applyLoop, hd, Bool.false_eq_true, if_false, hr]

/-- C9 witness: the empty catalog returns nil under an already-fired
token, and a graph stuck on a missing dependency reports the internal
error rather than cancellation. -/
theorem applyLoop_done_ignores_ctx_witness :
    applyCatalog trivSys ctxAlways () gDone = (.ok, [], ()) ∧
    applyCatalog trivSys ctxAlways () gStuck
      = (.internalError "graph not done, but has nothing to do", [], ()) :=
  ⟨(applyLoop_done_ignores_ctx trivSys ctxAlways 0 () gDone true 0).1 rfl,
   (applyLoop_done_ignores_ctx trivSys ctxAlways 1 () gStuck true 0).2 rfl rfl
      (by decide)⟩

/-- C7: for every exec command descriptor built from the catalog, the
environment passed to `System.Run` is exactly the specified `name=value`
pairs, in the order listed — the model passes only `Cmd.Env` to `run`, so
nothing is inherited from the host environment — and a pair with an empty
name makes `buildCommand` fail instead of producing a descriptor. -/
theorem buildCommand_env_exact (cmd : ExecCommand) :
    (∀ c : Cmd, buildCommand cmd = .ok c → c.Env = cmd.environment.map envString) ∧
    ((∃ p ∈ cmd.environment, p.name = "") → ∃ m, buildCommand cmd = .error m) := by
  constructor
  · intro c hc
    unfold buildCommand at hc
    cases hu : cmd.u with
    | unknown => rw [hu] at hc; cases hc
    | argv argv =>
      rw [hu] at hc
      cases argv with
      | nil => cases hc
      | cons a0 rest =>
        by_cases ha : isAbs a0
        · simp only [ha, Bool.not_true, Bool.false_eq_true, if_false] at hc
          cases he : envStrings 0 cmd.environment with
          | error m => rw [he] at hc; cases hc
          | ok env =>
            rw [he] at hc
            by_cases hw : cmd.workingDirectory = ""
            · simp only [hw, if_true] at hc
              cases hc
              exact envStrings_ok he
            · simp only [hw, if_false] at hc
              by_cases hwa : isAbs cmd.workingDirectory
              · simp only [hwa, Bool.not_true, Bool.false_eq_true, if_false] at hc
                cases hc
                exact envStrings_ok he
              · simp only [hwa, Bool.not_false, if_true] at hc; cases hc
        · simp only [ha, Bool.not_false, if_true] at hc; cases hc
  · rintro ⟨p, hp, hn⟩
    unfold buildCommand
    cases hu : cmd.u with
    | unknown => exact ⟨_, rfl⟩
    | argv argv =>
      cases argv with
      | nil => exact ⟨_, rfl⟩
      | cons a0 rest =>
        by_cases ha : isAbs a0
        · rcases envStrings_empty_name (i := 0) hp hn with ⟨m, hm⟩
          refine ⟨m, ?_⟩
          simp only [ha, Bool.not_true, Bool.false_eq_true, if_false, hm]
        · exact ⟨"argv[0] (" ++ a0 ++ ") is not an absolute path", by simp [ha]⟩

/-- C7 witness: a two-pair environment is rendered exactly and in order;
an empty name is rejected. -/
theorem buildCommand_env_exact_witness :
    (Cmd.Env ⟨"/bin/echo", ["/bin/echo", "hi"], ["PATH=/bin", "X="], "/"⟩
      = List.map envString [⟨"PATH", "/bin"⟩, ⟨"X", ""⟩]) ∧
    (∃ m, buildCommand ⟨.argv ["/bin/echo", "hi"], [⟨"", "v"⟩], ""⟩ = .error m) :=
  ⟨(buildCommand_env_exact
      ⟨.argv ["/bin/echo", "hi"], [⟨"PATH", "/bin"⟩, ⟨"X", ""⟩], ""⟩).1 _ rfl,
   (buildCommand_env_exact ⟨.argv ["/bin/echo", "hi"], [⟨"", "v"⟩], ""⟩).2
      ⟨⟨"", "v"⟩, List.mem_singleton.mpr rfl, rfl⟩⟩

/-- C10: every accepted argv command yields a descriptor with
`Path = argv[0]`, `Args` the whole argv sequence (so `Args[0] = Path`),
and `Dir` the given working directory when non-empty, `LocalRoot` when
empty. -/
theorem buildCommand_argv_shape (cmd : ExecCommand) (argv : List String) (c : Cmd)
    (hu : cmd.u = .argv argv) (hok : buildCommand cmd = .ok c) :
    c.Args = argv ∧ argv.head? = some c.Path ∧ c.Args.head? = some c.Path ∧
    c.Dir = (if cmd.workingDirectory = "" then LocalRoot else cmd.workingDirectory) := by
  unfold buildCommand at hok
  rw [hu] at hok
  cases argv with
  | nil => cases hok
  | cons a0 rest =>
    by_cases ha : isAbs a0
    · simp only [ha, Bool.not_true, Bool.false_eq_true, if_false] at hok
      cases he : envStrings 0 cmd.environment with
      | error m => rw [he] at hok; cases hok
      | ok env =>
        rw [he] at hok
        by_cases hw : cmd.workingDirectory = ""
        · simp only [hw, if_true] at hok
          cases hok
          simp [hw]
        · simp only [hw, if_false] at hok
          by_cases hwa : isAbs cmd.workingDirectory
          · simp only [hwa, Bool.not_true, Bool.false_eq_true, if_false] at hok
            cases hok
            simp [hw]
          · simp only [hwa, Bool.not_false, if_true] at hok; cases hok
    · simp only [ha, Bool.not_false, if_true] at hok; cases hok

/-- C10 witness: a concrete two-argument command with a non-empty working
directory, and the same command with an empty working directory getting
`LocalRoot`. -/
theorem buildCommand_argv_shape_witness :
    (Cmd.Args ⟨"/bin/ls", ["/bin/ls", "-l"], [], "/tmp"⟩ = ["/bin/ls", "-l"] ∧
      List.head? ["/bin/ls", "-l"]
        = some (Cmd.Path ⟨"/bin/ls", ["/bin/ls", "-l"], [], "/tmp"⟩) ∧
      List.head? (Cmd.Args ⟨"/bin/ls", ["/bin/ls", "-l"], [], "/tmp"⟩)
        = some (Cmd.Path ⟨"/bin/ls", ["/bin/ls", "-l"], [], "/tmp"⟩) ∧
      Cmd.Dir ⟨"/bin/ls", ["/bin/ls", "-l"], [], "/tmp"⟩
        = (if ("/tmp" : String) = "" then LocalRoot else "/tmp")) ∧
    buildCommand ⟨.argv ["/bin/ls", "-l"], [], ""⟩
      = .ok ⟨"/bin/ls", ["/bin/ls", "-l"], [], LocalRoot⟩ :=
  ⟨buildCommand_argv_shape ⟨.argv ["/bin/ls", "-l"], [], "/tmp"⟩ ["/bin/ls", "-l"] _
      rfl rfl,
   rfl⟩

/-- C8: a file resource with an empty path is rejected with
`file path is empty` before the sub-variant dispatch, so no `System`
method is invoked (the call trace is empty and the host state is
unchanged), whatever the sub-variant. -/
theorem applyFile_empty_path {σ : Type} (sys : System σ) (s : σ) (f : File)
    (h : f.path = "") :
    applyFile sys s f = (.error (errorf "file path is empty"), [], s) := by
  unfold applyFile
  simp [h]

/-- C8 witness: an empty path with an unknown sub-variant. -/
theorem applyFile_empty_path_witness :
    applyFile trivSys () ⟨"", .unknown⟩
      = (.error (errorf "file path is empty"), [], ()) :=
  applyFile_empty_path trivSys () ⟨"", .unknown⟩ rfl

/-- C6: a plain file resource without content performs exactly
`Lstat(path)` and succeeds iff the result is a regular file; a wrong-kind
entry yields the is-not-a-regular-file error and a missing path yields
the raw `Lstat` error. -/
theorem applyFile_plain_no_content {σ : Type} (sys : System σ) (s : σ) (f : File)
    (p : String) (hp : f.path = p) (hne : p ≠ "") (hu : f.u = .plain none) :
    (applyFile sys s f).2.1 = [SysCall.lstat p] ∧
    ((applyFile sys s f).1 = .ok () ↔
      ∃ info, (sys.lstat s p).1 = .ok info ∧ info.kind = .regular) ∧
    (∀ info, (sys.lstat s p).1 = .ok info → info.kind ≠ .regular →
      applyFile sys s f
        = (.error (errorf "%!s(MISSING) is not a regular file"), [SysCall.lstat p],
            (sys.lstat s p).2)) ∧
    (∀ er, (sys.lstat s p).1 = .error er →
      applyFile sys s f = (.error (toAppErr er), [SysCall.lstat p], (sys.lstat s p).2)) := by
  subst hp
  unfold applyFile
  simp only [hne, if_false, hu]
  cases hl : (sys.lstat s f.path).1 with
  | error er =>
    refine ⟨rfl, by simp, ?_, ?_⟩
    · intro info hinfo _; cases hinfo
    · intro er2 her2; injection her2 with h; subst h; rfl
  | ok info =>
    by_cases hk : info.kind = .regular
    · refine ⟨?_, ?_, ?_, ?_⟩
      · simp [hk]
      · refine iff_of_true ?_ ⟨info, rfl, hk⟩
        simp [hk]
      · intro info2 hinfo2 hk2; injection hinfo2 with h; subst h; exact absurd hk hk2
      · intro er her; cases her
    · refine ⟨?_, ?_, ?_, ?_⟩
      · simp [hk]
      · simp [hk]
      · intro info2 hinfo2 _; injection hinfo2 with h; subst h; simp [hk]
      · intro er her; cases her

/-- C6 witness: a host where `/etc/hosts` is a directory — `Lstat` is the
only call and the resource fails. -/
theorem applyFile_plain_no_content_witness :
    ((applyFile ⟨fun s _ => (.ok ⟨.dir⟩, s), trivSys.mkdir, trivSys.symlink,
        trivSys.readlink, trivSys.remove, trivSys.writeFile, trivSys.run⟩ ()
        ⟨"/etc/hosts", .plain none⟩).2.1 = [SysCall.lstat "/etc/hosts"]) ∧
    ((applyFile ⟨fun s _ => (.ok ⟨.dir⟩, s), trivSys.mkdir, trivSys.symlink,
        trivSys.readlink, trivSys.remove, trivSys.writeFile, trivSys.run⟩ ()
        ⟨"/etc/hosts", .plain none⟩).1 = .ok () ↔
      ∃ info, ((.ok ⟨FileKind.dir⟩ : Except SysErr FileInfo), ()).1 = .ok info ∧
        info.kind = .regular) :=
  ⟨(applyFile_plain_no_content _ () ⟨"/etc/hosts", .plain none⟩ "/etc/hosts" rfl
      (by decide) rfl).1,
   (applyFile_plain_no_content _ () ⟨"/etc/hosts", .plain none⟩ "/etc/hosts" rfl
      (by decide) rfl).2.1⟩

/-- C5: a symlink resource whose path already exists as a symlink with a
different target performs exactly `Symlink, Lstat, Readlink, Remove,
Symlink` and succeeds; when `Readlink` already returns the requested
target it stops after `Readlink` with no `Remove` or second `Symlink`;
failures of the `Remove` or of the second `Symlink` are reported with a
`retargeting` prefix. -/
theorem applyFile_symlink_retarget {σ : Type} (sys : System σ) (s s1 s2 : σ)
    (f : File) (p t : String) (hp : f.path = p) (hne : p ≠ "")
    (hu : f.u = .symlink t)
    (h1 : sys.symlink s t p = (some .isExist, s1))
    (h2 : sys.lstat s1 p = (.ok ⟨.symlink⟩, s2)) :
    (∀ a s3 s4 s5, sys.readlink s2 p = (.ok a, s3) → a ≠ t →
      sys.remove s3 p = (none, s4) → sys.symlink s4 t p = (none, s5) →
      applyFile sys s f
        = (.ok (), [.symlink t p, .lstat p, .readlink p, .remove p, .symlink t p], s5)) ∧
    (∀ s3, sys.readlink s2 p = (.ok t, s3) →
      applyFile sys s f = (.ok (), [.symlink t p, .lstat p, .readlink p], s3)) ∧
    (∀ a s3 er s4, sys.readlink s2 p = (.ok a, s3) → a ≠ t →
      sys.remove s3 p = (some er, s4) →
      applyFile sys s f
        = (.error (errorf ("retargeting " ++ p ++ ": " ++ sysErrStr er)),
            [.symlink t p, .lstat p, .readlink p, .remove p], s4)) ∧
    (∀ a s3 s4 er s5, sys.readlink s2 p = (.ok a, s3) → a ≠ t →
      sys.remove s3 p = (none, s4) → sys.symlink s4 t p = (some er, s5) →
      applyFile sys s f
        = (.error (errorf ("retargeting " ++ p ++ ": " ++ sysErrStr er)),
            [.symlink t p, .lstat p, .readlink p, .remove p, .symlink t p], s5)) := by
  subst hp
  unfold applyFile
  simp only [hne, if_false, hu, h1, h2]
  refine ⟨?_, ?_, ?_, ?_⟩
  · intro a s3 s4 s5 hrl ha hrm hsl2
    simp [hrl, ha, hrm, hsl2]
  · intro s3 hrl
    simp [hrl]
  · intro a s3 er s4 hrl ha hrm
    simp [hrl, ha, hrm]
  · intro a s3 s4 er s5 hrl ha hrm hsl2
    simp [hrl, ha, hrm, hsl2]

/-- C5 witness: the spec's scenario — `/tmp/link` points at `/old`, the
resource requests `/new`; the exact five-call sequence succeeds. -/
theorem applyFile_symlink_retarget_witness :
    applyFile linkSys false ⟨"/tmp/link", .symlink "/new"⟩
      = (.ok (),
          [.symlink "/new" "/tmp/link", .lstat "/tmp/link", .readlink "/tmp/link",
            .remove "/tmp/link", .symlink "/new" "/tmp/link"], true) :=
  (applyFile_symlink_retarget linkSys false false false ⟨"/tmp/link", .symlink "/new"⟩
      "/tmp/link" "/new" rfl (by decide) rfl rfl rfl).1
    "/old" false true true rfl (by decide) rfl rfl

/-- C3: an exec resource with an `onlyIf(cmd)` condition runs `cmd`; a
non-zero exit skips the main command and reports success; a non-exit
failure yields a `condition:`-wrapped error carrying the captured output
with the main command not run; a zero exit continues into the main-command
phase, and when the main command builds it is run right after `cmd`. -/
theorem applyExec_onlyIf {σ : Type} (sys : System σ) (s s1 : σ) (e : Exec)
    (c : ExecCommand) (cmd : Cmd) (out : String) (err : Option SysErr)
    (hcond : e.condition = .onlyIf c) (hb : buildCommand c = .ok cmd)
    (hr : sys.run s cmd = ((out, err), s1)) :
    (err = some .exitError → applyExec sys s e = (.ok (), [.run cmd], s1)) ∧
    (∀ er, err = some er → er ≠ .exitError →
      applyExec sys s e
        = (.error ⟨"condition: " ++ sysErrStr er, some out⟩, [.run cmd], s1)) ∧
    (err = none →
      applyExec sys s e
        = ((runMain sys s1 e).1, .run cmd :: (runMain sys s1 e).2.1,
            (runMain sys s1 e).2.2)) ∧
    (∀ mcmd, err = none → buildCommand e.command = .ok mcmd →
      (applyExec sys s e).2.1 = [.run cmd, .run mcmd]) := by
  refine ⟨?_, ?_, ?_, ?_⟩
  · intro h; subst h
    unfold applyExec
    simp only [hcond, hb, hr]
  · intro er h hne; subst h
    cases er with
    | exitError => exact absurd rfl hne
    | isExist => unfold applyExec; simp only [hcond, hb, hr]; rfl
    | isNotExist => unfold applyExec; simp only [hcond, hb, hr]; rfl
    | other m => unfold applyExec; simp only [hcond, hb, hr]; rfl
  · intro h; subst h
    unfold applyExec
    simp only [hcond, hb, hr]
  · intro mcmd h hm; subst h
    unfold applyExec runMain
    simp only [hcond, hb, hr, hm]
    cases hr2 : (sys.run s1 mcmd).1.2 with
    | none => simp [hr2]
    | some er2 => simp [hr2]

/-- C3 witness: a condition command that exits non-zero — the resource
succeeds having run only the condition command. -/
theorem applyExec_onlyIf_witness :
    applyExec sysRunExit () ⟨⟨.argv ["/bin/false"], [], ""⟩,
        .onlyIf ⟨.argv ["/bin/check"], [], ""⟩⟩
      = (.ok (), [.run ⟨"/bin/check", ["/bin/check"], [], "/"⟩], ()) :=
  (applyExec_onlyIf sysRunExit () () ⟨⟨.argv ["/bin/false"], [], ""⟩,
      .onlyIf ⟨.argv ["/bin/check"], [], ""⟩⟩ ⟨.argv ["/bin/check"], [], ""⟩
      ⟨"/bin/check", ["/bin/check"], [], "/"⟩ "boom" (some .exitError)
      rfl rfl rfl).1 rfl

/-- C4: an exec resource with an `unless(cmd)` condition runs `cmd`; a
zero exit skips the main command and reports success; a non-zero exit
continues into the main-command phase, and when the main command builds
it is run right after `cmd`; a non-exit failure yields a
`condition:`-wrapped error carrying the captured output. -/
theorem applyExec_unless {σ : Type} (sys : System σ) (s s1 : σ) (e : Exec)
    (c : ExecCommand) (cmd : Cmd) (out : String) (err : Option SysErr)
    (hcond : e.condition = .unlessCond c) (hb : buildCommand c = .ok cmd)
    (hr : sys.run s cmd = ((out, err), s1)) :
    (err = none → applyExec sys s e = (.ok (), [.run cmd], s1)) ∧
    (err = some .exitError →
      applyExec sys s e
        = ((runMain sys s1 e).1, .run cmd :: (runMain sys s1 e).2.1,
            (runMain sys s1 e).2.2)) ∧
    (∀ mcmd, err = some .exitError → buildCommand e.command = .ok mcmd →
      (applyExec sys s e).2.1 = [.run cmd, .run mcmd]) ∧
    (∀ er, err = some er → er ≠ .exitError →
      applyExec sys s e
        = (.error ⟨"condition: " ++ sysErrStr er, some out⟩, [.run cmd], s1)) := by
  refine ⟨?_, ?_, ?_, ?_⟩
  · intro h; subst h
    unfold applyExec
    simp only [hcond, hb, hr]
  · intro h; subst h
    unfold applyExec
    simp only [hcond, hb, hr]
  · intro mcmd h hm; subst h
    unfold applyExec runMain
    simp only [hcond, hb, hr, hm]
    cases hr2 : (sys.run s1 mcmd).1.2 with
    | none => simp [hr2]
    | some er2 => simp [hr2]
  · intro er h hne; subst h
    cases er with
    | exitError => exact absurd rfl hne
    | isExist => unfold applyExec; simp only [hcond, hb, hr]; rfl
    | isNotExist => unfold applyExec; simp only [hcond, hb, hr]; rfl
    | other m => unfold applyExec; simp only [hcond, hb, hr]; rfl

/-- C4 witness: the spec's scenario — `unless = /bin/true` (exit 0) with
main `/bin/false`: `/bin/true` is invoked, `/bin/false` is not, and the
resource succeeds. -/
theorem applyExec_unless_witness :
    applyExec sysRunOk () ⟨⟨.argv ["/bin/false"], [], ""⟩,
        .unlessCond ⟨.argv ["/bin/true"], [], ""⟩⟩
      = (.ok (), [.run ⟨"/bin/true", ["/bin/true"], [], "/"⟩], ()) :=
  (applyExec_unless sysRunOk () () ⟨⟨.argv ["/bin/false"], [], ""⟩,
      .unlessCond ⟨.argv ["/bin/true"], [], ""⟩⟩ ⟨.argv ["/bin/true"], [], ""⟩
      ⟨"/bin/true", ["/bin/true"], [], "/"⟩ "" none rfl rfl rfl).1 rfl

end Mcm
